import Mathlib

/-!
Verification of the DXF → KML geometry pipeline (`src/app.py`).

Shallow embedding of the geometry normalization and reprojection pipeline:
`transform_xy_list`, `is_closed_lwpoly`, `arc_to_polyline`,
`spline_to_polyline`, `layer_ok`, the whitelist construction from the
`include_layers` text field, and the per-entity dispatch loop.

Modelling conventions:
* Float coordinates are modelled as exact rationals (`ℚ`); the source performs
  only field arithmetic on them, which `ℚ` reproduces without rounding.
* The library calls `math.cos`, `math.sin` and `math.radians` are abstracted
  as explicit function parameters `mc ms mr : ℚ → ℚ` (the radian conversion
  multiplies by the irrational π/180, so it cannot be a rational-valued
  closed form); every theorem quantifies over them, so nothing proved depends
  on trigonometric identities the source does not rely on.
* The fallible projection capability `transformer.transform` is modelled as
  `ℚ → ℚ → Option (ℚ × ℚ)`: `none` models a raised projection exception.
* The fallible spline evaluator `spline.point` is likewise `Option`-valued.
* Per-entity processing returns an `EntityResult`: `.failed` models a raised
  (and caught) exception, `.skipped` models an entity filtered out by the
  layer whitelist, `.emitted f` models a KML feature added to the document.
-/

namespace DxfToKml

/-- A 3D location, as exposed by the parsed DXF document model
(`e.dxf.location`, `e.dxf.start`, `e.dxf.end`, vertex locations). -/
structure Vec3 where
  x : ℚ
  y : ℚ
  z : ℚ
deriving DecidableEq

/-- The coincidence epsilon `1e-6` used by `is_closed_lwpoly`. -/
def EPS : ℚ := 1 / 1000000

/-- Embedding of `transform_xy_list(transformer, xy)` from `src/app.py`: applies the
projection to each `(x, y)` pair, building the output list in order. A `none`
from the projection models `transformer.transform` raising, which aborts the
whole call (the exception propagates to the entity loop). -/
def transform_xy_list (tr : ℚ → ℚ → Option (ℚ × ℚ)) :
    List (ℚ × ℚ) → Option (List (ℚ × ℚ))
  | [] => some []
  | (x, y) :: rest =>
    match tr x y, transform_xy_list tr rest with
    | some ll, some out => some (ll :: out)
    | _, _ => none

/-- Embedding of `is_closed_lwpoly(lw)` from `src/app.py`, with the `closed` flag
and 2D vertex list passed explicitly. The Python indexes `pts[0]` / `pts[-1]`
only after the short-circuiting `len(pts) > 2` guard, so the `headD`/`getLastD`
defaults `(0, 0)` are never reachable. -/
def is_closed_lwpoly (closed : Bool) (pts : List (ℚ × ℚ)) : Bool :=
  if closed then true
  else
    decide (2 < pts.length) &&
      (decide (|(pts.headD (0, 0)).1 - (pts.getLastD (0, 0)).1| < EPS) &&
        decide (|(pts.headD (0, 0)).2 - (pts.getLastD (0, 0)).2| < EPS))

/-- Embedding of `arc_to_polyline(center, radius, start_angle, end_angle, segments)` from
`src/app.py`. `mc`, `ms`, `mr` stand for `math.cos`, `math.sin`,
`math.radians`. Angles in degrees; `end_angle` is bumped by 360 when below
`start_angle`; the step divisor is `max(1, segments)`. -/
def arc_to_polyline (mc ms mr : ℚ → ℚ) (center : ℚ × ℚ)
    (radius start_angle end_angle : ℚ) (segments : ℕ) : List (ℚ × ℚ) :=
  let ea := if end_angle < start_angle then end_angle + 360 else end_angle
  let step := (ea - start_angle) / ((max 1 segments : ℕ) : ℚ)
  (List.range (segments + 1)).map (fun (i : ℕ) =>
    let ang := mr (start_angle + (i : ℚ) * step)
    (center.1 + radius * mc ang, center.2 + radius * ms ang))

/-- The slice of a parsed SPLINE entity used by `spline_to_polyline`: the
parametric evaluator `spline.point` (which may raise, modelled by `none`) and
the raw `spline.control_points` (3D points; only x, y are consumed). -/
structure SplineM where
  point : ℚ → Option (ℚ × ℚ × ℚ)
  control_points : List (ℚ × ℚ × ℚ)

/-- Evaluates `f` at each index of the list, failing as soon as one call
fails: the embedding of the list comprehension
`[spline.point(i / segments) for i in range(segments + 1)]` inside `try`. -/
def collect_points (f : ℕ → Option (ℚ × ℚ × ℚ)) :
    List ℕ → Option (List (ℚ × ℚ × ℚ))
  | [] => some []
  | i :: rest =>
    match f i, collect_points f rest with
    | some p, some ps => some (p :: ps)
    | _, _ => none

/-- Embedding of `spline_to_polyline(spline, segments)` from `src/app.py`: sample the
evaluator at `t = i/segments` for `i = 0..segments`; on any failure fall back
to the raw control points. Both outcomes keep only `(p[0], p[1])`. -/
def spline_to_polyline (sp : SplineM) (segments : ℕ) : List (ℚ × ℚ) :=
  match collect_points (fun i => sp.point ((i : ℚ) / (segments : ℚ)))
      (List.range (segments + 1)) with
  | some pts => pts.map (fun p => (p.1, p.2.1))
  | none => sp.control_points.map (fun p => (p.1, p.2.1))

/-- Embedding of `layer_ok(ent_layer)` from `src/app.py`:
`(layer_whitelist is None) or (ent_layer in layer_whitelist)`. The whitelist
set is modelled as a list; membership is exact, case-sensitive string
equality, as in Python. -/
def layer_ok (wl : Option (List String)) (ent_layer : String) : Bool :=
  match wl with
  | none => true
  | some s => decide (ent_layer ∈ s)

/-- The whitelist construction from the `include_layers` text field
(`src/app.py` lines 107–109): `None` when the stripped input is empty,
otherwise the set of stripped, non-empty comma-separated items. -/
def layer_whitelist_of (include_layers : String) : Option (List String) :=
  if include_layers.trim ≠ "" then
    some (((include_layers.splitOn ",").map String.trim).filter
      (fun l => l ≠ ""))
  else none

/-- The drawing-entity kinds dispatched by the entity loop, with exactly the
fields each branch reads from the parsed document model. -/
inductive DxfEntity where
  | point (layer : String) (location : Vec3)
  | line (layer : String) (p1 p2 : Vec3)
  | lwpolyline (layer : String) (closed : Bool) (pts : List (ℚ × ℚ))
  | polyline (layer : String) (closed : Bool) (vertices : List Vec3)
  | circle (layer : String) (center : Vec3) (radius : ℚ)
  | arc (layer : String) (center : Vec3) (radius : ℚ)
      (start_angle end_angle : ℚ)
  | spline (layer : String) (sp : SplineM)

/-- The layer name of an entity (`e.dxf.layer`). -/
def layer_of : DxfEntity → String
  | .point l _ => l
  | .line l _ _ => l
  | .lwpolyline l _ _ => l
  | .polyline l _ _ => l
  | .circle l _ _ => l
  | .arc l _ _ _ _ => l
  | .spline l _ => l

/-- The kind of KML feature a branch creates, which is also the key of the
`count` dictionary it increments (`newpoint` → points, `newlinestring` for a
LINE → lines, `newlinestring` otherwise → polylines, `newpolygon` →
polygons). -/
inductive FeatureKind where
  | point
  | line
  | polyline
  | polygon
deriving DecidableEq

/-- A KML feature produced by one branch of the entity loop: its kind, its
`name=` string, and its coordinate triples (`coords` or `outerboundaryis`). -/
structure Feature where
  kind : FeatureKind
  name : String
  coords : List (ℚ × ℚ × ℚ)
deriving DecidableEq

/-- Elevation padding `[(lon, lat, 0.0) for lon, lat in coords]`: every non-Point branch
attaches elevation `0.0` to the reprojected pairs. -/
def withZeroZ (coords : List (ℚ × ℚ)) : List (ℚ × ℚ × ℚ) :=
  coords.map (fun ll => (ll.1, ll.2, 0))

/-- Outcome of the loop body for one entity: an exception caught by the
`except` clause (`failed`), no matching `isinstance`-and-`layer_ok` branch
(`skipped`), or a feature added to the KML document (`emitted`). -/
inductive EntityResult where
  | failed
  | skipped
  | emitted (f : Feature)
deriving DecidableEq

/-- The body of the entity loop of `src/app.py` (lines 132–200) for a single
entity: dispatch on the entity kind, filter by `layer_ok`, extract and
reproject vertices, and build the feature exactly as each branch does. -/
def process_entity (mc ms mr : ℚ → ℚ) (tr : ℚ → ℚ → Option (ℚ × ℚ))
    (wl : Option (List String)) (seg : ℕ) : DxfEntity → EntityResult
  | .point layer loc =>
    if layer_ok wl layer then
      match tr loc.x loc.y with
      | some (lon, lat) =>
        .emitted ⟨.point, "POINT:" ++ layer, [(lon, lat, loc.z)]⟩
      | none => .failed
    else .skipped
  | .line layer p1 p2 =>
    if layer_ok wl layer then
      match transform_xy_list tr [(p1.x, p1.y), (p2.x, p2.y)] with
      | some coords => .emitted ⟨.line, "LINE:" ++ layer, withZeroZ coords⟩
      | none => .failed
    else .skipped
  | .lwpolyline layer closed pts =>
    if layer_ok wl layer then
      match transform_xy_list tr pts with
      | some coords =>
        if is_closed_lwpoly closed pts ∧ 3 ≤ coords.length then
          .emitted ⟨.polygon, "POLY:" ++ layer, withZeroZ coords⟩
        else
          .emitted ⟨.polyline, "LWPOLY:" ++ layer, withZeroZ coords⟩
      | none => .failed
    else .skipped
  | .polyline layer closed vertices =>
    if layer_ok wl layer then
      match transform_xy_list tr (vertices.map (fun v => (v.x, v.y))) with
      | some coords =>
        if closed ∧ 3 ≤ coords.length then
          .emitted ⟨.polygon, "POLY:" ++ layer, withZeroZ coords⟩
        else
          .emitted ⟨.polyline, "POLYLINE:" ++ layer, withZeroZ coords⟩
      | none => .failed
    else .skipped
  | .circle layer c r =>
    if layer_ok wl layer then
      match transform_xy_list tr (arc_to_polyline mc ms mr (c.x, c.y) r 0 360 seg) with
      | some coords =>
        .emitted ⟨.polyline, "CIRCLE:" ++ layer, withZeroZ coords⟩
      | none => .failed
    else .skipped
  | .arc layer c r sa ea =>
    if layer_ok wl layer then
      match transform_xy_list tr (arc_to_polyline mc ms mr (c.x, c.y) r sa ea seg) with
      | some coords =>
        .emitted ⟨.polyline, "ARC:" ++ layer, withZeroZ coords⟩
      | none => .failed
    else .skipped
  | .spline layer sp =>
    if layer_ok wl layer then
      match transform_xy_list tr (spline_to_polyline sp seg) with
      | some coords =>
        .emitted ⟨.polyline, "SPLINE:" ++ layer, withZeroZ coords⟩
      | none => .failed
    else .skipped

/-- The entity loop: the features added to the KML document, in entity order.
A `failed` entity (caught exception, `st.warning`) and a `skipped` entity
contribute nothing. -/
def process_entities (mc ms mr : ℚ → ℚ) (tr : ℚ → ℚ → Option (ℚ × ℚ))
    (wl : Option (List String)) (seg : ℕ) : List DxfEntity → List Feature
  | [] => []
  | e :: rest =>
    match process_entity mc ms mr tr wl seg e with
    | .emitted f => f :: process_entities mc ms mr tr wl seg rest
    | _ => process_entities mc ms mr tr wl seg rest

/-- The `count` dictionary of `src/app.py`. -/
structure Counts where
  points : ℕ
  lines : ℕ
  polylines : ℕ
  polygons : ℕ
deriving DecidableEq

/-- Recovers the final `count` dictionary from the emitted feature list: each
branch increments exactly the count keyed by the kind of the feature it
emits, in the same pass. -/
def tally : List Feature → Counts
  | [] => ⟨0, 0, 0, 0⟩
  | f :: rest =>
    let c := tally rest
    match f.kind with
    | .point => { c with points := c.points + 1 }
    | .line => { c with lines := c.lines + 1 }
    | .polyline => { c with polylines := c.polylines + 1 }
    | .polygon => { c with polygons := c.polygons + 1 }

/-- The identity rational function, used to instantiate the abstract
`math.cos` / `math.sin` / `math.radians` parameters at concrete inputs. -/
def idQ : ℚ → ℚ := fun a => a

/-- A projection that never fails and returns its input, used for concrete
instantiations. -/
def idTr : ℚ → ℚ → Option (ℚ × ℚ) := fun x y => some (x, y)

/-- A projection that fails exactly at `x = 5`, modelling a coordinate
outside the transform domain. -/
def failTr : ℚ → ℚ → Option (ℚ × ℚ) :=
  fun x y => if x = 5 then none else some (x, y)

/-- A concrete spline whose evaluator always succeeds:
`point t = (t, 2t, 0)`, one control point. -/
def splineW : SplineM :=
  ⟨fun t => some (t, 2 * t, 0), [(9, 9, 9)]⟩

/-! ## Helper lemmas -/

theorem head?_map_range {α : Type} (f : ℕ → α) (n : ℕ) :
    ((List.range (n + 1)).map f).head? = some (f 0) := by
  rw [List.range_succ_eq_map]
  simp

theorem getLast?_map_range {α : Type} (f : ℕ → α) (n : ℕ) :
    ((List.range (n + 1)).map f).getLast? = some (f n) := by
  rw [List.range_succ, List.map_append]
  simp

theorem collect_points_length (f : ℕ → Option (ℚ × ℚ × ℚ)) :
    ∀ l ps, collect_points f l = some ps → ps.length = l.length := by
  intro l
  induction l with
  | nil => intro ps h; simp [collect_points] at h; simp [← h]
  | cons i rest ih =>
    intro ps h
    simp only [collect_points] at h
    cases hf : f i with
    | none => rw [hf] at h; simp at h
    | some p =>
      rw [hf] at h
      cases hc : collect_points f rest with
      | none => rw [hc] at h; simp at h
      | some qs =>
        rw [hc] at h
        simp at h
        subst h
        simp [ih qs hc]

/-! ## Claims -/

/-- C5: the ring classifier `is_closed_lwpoly` returns `true` unconditionally
when the explicit closed flag is set (even for sequences of fewer than 3
vertices); with the flag unset it returns `true` exactly when the sequence
has more than 2 vertices and the first and last vertices differ by less than
`1e-6` in both the x and the y coordinate. -/
theorem c5_thm : ∀ (pts : List (ℚ × ℚ)),
    is_closed_lwpoly true pts = true ∧
    (is_closed_lwpoly false pts = true ↔
      2 < pts.length ∧
        |(pts.headD (0, 0)).1 - (pts.getLastD (0, 0)).1| < EPS ∧
        |(pts.headD (0, 0)).2 - (pts.getLastD (0, 0)).2| < EPS) := by
  intro pts
  constructor
  · rfl
  · simp [is_closed_lwpoly, and_assoc]

/-- C10: arc flattening is total at `segments = 0`: the step divisor is
clamped (`max 1 0 = 1`, no division by zero) and the result is the single
vertex at the start angle, for any angles, center and radius. -/
theorem c10_thm : ∀ (mc ms mr : ℚ → ℚ) (cx cy r sa ea : ℚ),
    arc_to_polyline mc ms mr (cx, cy) r sa ea 0 =
      [(cx + r * mc (mr sa), cy + r * ms (mr sa))] := by
  intro mc ms mr cx cy r sa ea
  by_cases h : ea < sa <;>
    simp [arc_to_polyline, h, List.range_succ, List.range_zero]

/-- C6: whenever reprojection succeeds, the output has exactly the length of
the input, element `i` is the projection applied to the `(x, y)` of input
element `i` (no vertex dropped, added, deduplicated or reordered), and the empty
sequence maps to the empty sequence. -/
theorem c6_thm (tr : ℚ → ℚ → Option (ℚ × ℚ)) :
    transform_xy_list tr [] = some [] ∧
    ∀ xs ys, transform_xy_list tr xs = some ys →
      ys.length = xs.length ∧
      ∀ i (hx : i < xs.length) (hy : i < ys.length),
        tr (xs.get ⟨i, hx⟩).1 (xs.get ⟨i, hx⟩).2 = some (ys.get ⟨i, hy⟩) := by
  refine ⟨rfl, ?_⟩
  intro xs
  induction xs with
  | nil =>
    intro ys h
    simp only [transform_xy_list] at h
    obtain rfl : ([] : List (ℚ × ℚ)) = ys := by simpa using h
    simp
  | cons p rest ih =>
    intro ys h
    obtain ⟨x, y⟩ := p
    simp only [transform_xy_list] at h
    cases htr : tr x y with
    | none => rw [htr] at h; simp at h
    | some ll =>
      rw [htr] at h
      cases hrest : transform_xy_list tr rest with
      | none => rw [hrest] at h; simp at h
      | some out =>
        rw [hrest] at h
        simp only [Option.some.injEq] at h
        subst h
        obtain ⟨hlen, helt⟩ := ih out hrest
        refine ⟨by simp [hlen], ?_⟩
        intro i hx hy
        cases i with
        | zero => simpa using htr
        | succ j =>
          simpa using helt j (by simpa using hx) (by simpa using hy)

/-- C6 witness: reprojection at a concrete two-vertex input with the identity
projection, via `c6_thm`. -/
theorem c6_witness : idTr 3 4 = some (3, 4) := by
  have h := (c6_thm idTr).2 [(3, 4), (7, 8)] [(3, 4), (7, 8)] (by decide)
  simpa using h.2 0 (by decide) (by decide)

/-- C3: for `start_angle ≤ end_angle` and `segments ≥ 1`, flattening returns
exactly `segments + 1` vertices; vertex `i` is the point at angle
`start + i*(end-start)/segments` (in degrees, converted by `mr` and evaluated
by `mc`/`ms`); the first vertex is the point at the start angle and the last
the point at the end angle. -/
theorem c3_thm (mc ms mr : ℚ → ℚ) (cx cy r sa ea : ℚ) (n : ℕ)
    (h1 : sa ≤ ea) (h2 : 1 ≤ n) :
    (arc_to_polyline mc ms mr (cx, cy) r sa ea n).length = n + 1 ∧
    (∀ i, i < n + 1 → (arc_to_polyline mc ms mr (cx, cy) r sa ea n)[i]? =
      some (cx + r * mc (mr (sa + (i : ℚ) * ((ea - sa) / (n : ℚ)))),
            cy + r * ms (mr (sa + (i : ℚ) * ((ea - sa) / (n : ℚ)))))) ∧
    (arc_to_polyline mc ms mr (cx, cy) r sa ea n).head? =
      some (cx + r * mc (mr sa), cy + r * ms (mr sa)) ∧
    (arc_to_polyline mc ms mr (cx, cy) r sa ea n).getLast? =
      some (cx + r * mc (mr ea), cy + r * ms (mr ea)) := by
  have hnot : ¬ ea < sa := not_lt.mpr h1
  have hmax : max 1 n = n := max_eq_right h2
  have hn : (n : ℚ) ≠ 0 := Nat.cast_ne_zero.mpr (by omega)
  have hdef : arc_to_polyline mc ms mr (cx, cy) r sa ea n =
      (List.range (n + 1)).map (fun i : ℕ =>
        (cx + r * mc (mr (sa + (i : ℚ) * ((ea - sa) / (n : ℚ)))),
         cy + r * ms (mr (sa + (i : ℚ) * ((ea - sa) / (n : ℚ)))))) := by
    simp only [arc_to_polyline, hmax, if_neg hnot]
  refine ⟨?_, ?_, ?_, ?_⟩
  · rw [hdef]; simp
  · intro i hi
    rw [hdef, List.getElem?_map, List.getElem?_range hi]
    rfl
  · rw [hdef, head?_map_range]
    norm_num
  · rw [hdef, getLast?_map_range]
    have key : sa + (n : ℚ) * ((ea - sa) / (n : ℚ)) = ea := by
      field_simp
    rw [key]

/-- C3 witness: the arc from angle 0° to 90° with one segment yields exactly
two vertices, via `c3_thm` at concrete trig-function and arc parameters. -/
theorem c3_witness :
    (arc_to_polyline idQ idQ idQ (0, 0) 1 0 90 1).length = 2 ∧
    (arc_to_polyline idQ idQ idQ (0, 0) 1 0 90 1).getLast? = some (90, 90) := by
  have h := c3_thm idQ idQ idQ 0 0 1 0 90 1 (by norm_num) (le_refl 1)
  refine ⟨h.1, ?_⟩
  simpa [idQ] using h.2.2.2

/-- C4 counterexample: the arc with `start_angle = 720`, `end_angle = 0`
satisfies `end < start`, yet the sampled angles run from 720 down to 360: the
sweep `end + 360 - start = -360` is negative, refuting the claim that the
sweep is non-negative for every arc with `end_angle < start_angle`. -/
theorem c4_counterexample :
    ((0 : ℚ) < 720) ∧
    arc_to_polyline idQ idQ idQ (0, 0) 1 720 0 1 = [(720, 720), (360, 360)] ∧
    ((360 : ℚ) - 720 < 0) := by
  refine ⟨by norm_num, ?_, by norm_num⟩
  norm_num [arc_to_polyline, idQ, List.range_succ, List.range_zero]

/-- C4 (amended): for every arc with `end_angle < start_angle` and
`segments ≥ 1`, flattening first adds 360° to `end_angle`, so vertex `i` is
sampled at angle `start + i*(end+360-start)/segments` and the last sampled
angle is `end + 360` (hence the sweep equals `end + 360 - start`); that sweep
is non-negative provided `start - end ≤ 360`, as holds for angles normalized
to `[0, 360)`. -/
theorem c4_thm (mc ms mr : ℚ → ℚ) (cx cy r sa ea : ℚ) (n : ℕ)
    (h1 : ea < sa) (h2 : 1 ≤ n) :
    arc_to_polyline mc ms mr (cx, cy) r sa ea n =
      (List.range (n + 1)).map (fun i : ℕ =>
        (cx + r * mc (mr (sa + (i : ℚ) * ((ea + 360 - sa) / (n : ℚ)))),
         cy + r * ms (mr (sa + (i : ℚ) * ((ea + 360 - sa) / (n : ℚ)))))) ∧
    sa + (n : ℚ) * ((ea + 360 - sa) / (n : ℚ)) = ea + 360 ∧
    (sa - ea ≤ 360 → 0 ≤ ea + 360 - sa) := by
  have hmax : max 1 n = n := max_eq_right h2
  have hn : (n : ℚ) ≠ 0 := Nat.cast_ne_zero.mpr (by omega)
  refine ⟨?_, ?_, ?_⟩
  · simp only [arc_to_polyline, hmax, if_pos h1]
  · field_simp
  · intro h; linarith

/-- C4 witness: the arc from 350° to 10° with 36 segments yields 37 vertices
and its last sampled angle is `10 + 360 = 370`, i.e. the sweep is exactly
20°, via `c4_thm`. -/
theorem c4_witness :
    (arc_to_polyline idQ idQ idQ (0, 0) 1 350 10 36).length = 37 ∧
    (350 : ℚ) + ((36 : ℕ) : ℚ) * ((10 + 360 - 350) / ((36 : ℕ) : ℚ)) =
      10 + 360 := by
  have h := c4_thm idQ idQ idQ 0 0 1 350 10 36 (by norm_num) (by norm_num)
  refine ⟨?_, h.2.1⟩
  rw [h.1]; simp

/-- C7: for a spline with non-empty control points and `segments ≥ 1`: when
every evaluator call succeeds the result is the `segments + 1` samples at
`t = i/segments` (their `(x, y)`); when any call fails the result is the
control points verbatim (their `(x, y)`, no interpolation) and no exception
propagates; in both cases the result is non-empty. -/
theorem c7_thm (sp : SplineM) (n : ℕ) (h1 : sp.control_points ≠ [])
    (h2 : 1 ≤ n) :
    (∀ pts, collect_points (fun i => sp.point ((i : ℚ) / (n : ℚ)))
        (List.range (n + 1)) = some pts →
      spline_to_polyline sp n = pts.map (fun p => (p.1, p.2.1)) ∧
      (spline_to_polyline sp n).length = n + 1) ∧
    (collect_points (fun i => sp.point ((i : ℚ) / (n : ℚ)))
        (List.range (n + 1)) = none →
      spline_to_polyline sp n = sp.control_points.map (fun p => (p.1, p.2.1))) ∧
    spline_to_polyline sp n ≠ [] := by
  refine ⟨?_, ?_, ?_⟩
  · intro pts h
    have hu : spline_to_polyline sp n = pts.map (fun p => (p.1, p.2.1)) := by
      simp only [spline_to_polyline, h]
    have hl : pts.length = n + 1 := by
      simpa using collect_points_length _ (List.range (n + 1)) pts h
    exact ⟨hu, by rw [hu]; simp [hl]⟩
  · intro h
    simp only [spline_to_polyline, h]
  · cases hc : collect_points (fun i => sp.point ((i : ℚ) / (n : ℚ)))
        (List.range (n + 1)) with
    | none =>
      simp only [spline_to_polyline, hc]
      simpa using h1
    | some pts =>
      have hl : pts.length = n + 1 := by
        simpa using collect_points_length _ (List.range (n + 1)) pts hc
      simp only [spline_to_polyline, hc]
      intro hnil
      rw [List.map_eq_nil_iff] at hnil
      rw [hnil] at hl
      simp at hl

/-- C7 witness: a concrete spline whose evaluator succeeds everywhere,
sampled with 2 segments, via `c7_thm`: three samples at `t = 0, 1/2, 1`. -/
theorem c7_witness :
    spline_to_polyline splineW 2 = [(0, 0), (1/2, 1), (1, 2)] ∧
    spline_to_polyline splineW 2 ≠ [] := by
  have h := c7_thm splineW 2 (by simp [splineW]) (by norm_num)
  have hc : collect_points (fun i => splineW.point ((i : ℚ) / ((2 : ℕ) : ℚ)))
      (List.range (2 + 1)) = some [(0, 0, 0), (1/2, 1, 0), (1, 2, 0)] := by
    norm_num [collect_points, splineW, List.range_succ, List.range_zero]
  have ha := (h.1 _ hc).1
  refine ⟨?_, h.2.2⟩
  rw [ha]
  norm_num

/-- Unfolding of the entity loop at a cons cell. -/
theorem process_entities_cons (mc ms mr : ℚ → ℚ)
    (tr : ℚ → ℚ → Option (ℚ × ℚ)) (wl : Option (List String)) (seg : ℕ)
    (e : DxfEntity) (rest : List DxfEntity) :
    process_entities mc ms mr tr wl seg (e :: rest) =
      match process_entity mc ms mr tr wl seg e with
      | .emitted f => f :: process_entities mc ms mr tr wl seg rest
      | _ => process_entities mc ms mr tr wl seg rest := rfl

/-- C8: a failed (exception-raising) entity is isolated: the features and the
counts produced from the whole entity sequence are exactly those produced had
the failing entity been absent, so it contributes no output record and later
entities are unaffected. -/
theorem c8_thm (mc ms mr : ℚ → ℚ) (tr : ℚ → ℚ → Option (ℚ × ℚ))
    (wl : Option (List String)) (seg : ℕ) (e : DxfEntity)
    (pre post : List DxfEntity)
    (h : process_entity mc ms mr tr wl seg e = .failed) :
    process_entities mc ms mr tr wl seg (pre ++ e :: post) =
      process_entities mc ms mr tr wl seg (pre ++ post) ∧
    tally (process_entities mc ms mr tr wl seg (pre ++ e :: post)) =
      tally (process_entities mc ms mr tr wl seg (pre ++ post)) := by
  have key : ∀ l : List DxfEntity,
      process_entities mc ms mr tr wl seg (l ++ e :: post) =
        process_entities mc ms mr tr wl seg (l ++ post) := by
    intro l
    induction l with
    | nil =>
      rw [List.nil_append, List.nil_append, process_entities_cons, h]
    | cons a t ih =>
      rw [List.cons_append, List.cons_append, process_entities_cons,
        process_entities_cons]
      simp only [ih]
  exact ⟨key pre, by rw [key pre]⟩

/-- C8 witness: a projection failing at `x = 5` makes the middle point entity
fail; via `c8_thm` the loop output equals the output with that entity
absent. -/
theorem c8_witness :
    process_entity idQ idQ idQ failTr none 4 (.point "B" ⟨5, 0, 0⟩) =
      .failed ∧
    process_entities idQ idQ idQ failTr none 4
        ([.point "A" ⟨1, 1, 0⟩] ++ DxfEntity.point "B" ⟨5, 0, 0⟩ ::
          [.point "C" ⟨2, 2, 0⟩]) =
      process_entities idQ idQ idQ failTr none 4
        ([.point "A" ⟨1, 1, 0⟩] ++ [.point "C" ⟨2, 2, 0⟩]) := by
  have hfail : process_entity idQ idQ idQ failTr none 4
      (DxfEntity.point "B" ⟨5, 0, 0⟩) = .failed := by
    simp [process_entity, layer_ok, failTr]
  exact ⟨hfail, (c8_thm idQ idQ idQ failTr none 4 _ _ _ hfail).1⟩

/-- C9 counterexample: under the present-but-empty allow-list `some []`
(reachable from the text input `","` via `layer_whitelist_of`), an entity on
layer `"X"` is rejected and the loop emits nothing — refuting that an empty
allow-list means "all layers". -/
theorem c9_counterexample :
    layer_ok (some []) "X" = false ∧
    process_entities idQ idQ idQ idTr (some []) 4
      [.point "X" ⟨0, 0, 0⟩] = [] := by
  exact ⟨rfl, rfl⟩

/-- C9 (amended): an entity is processed iff the allow-list is absent
(`None`, meaning all layers) or contains the layer name of the entity as a
case-sensitive exact string match; a present-but-empty allow-list excludes
every entity. An entity on layer "X" is excluded when the allow-list is
`{"Y"}` and included when the allow-list is absent; an entity whose layer is
rejected is skipped by the loop. -/
theorem c9_thm (mc ms mr : ℚ → ℚ) (tr : ℚ → ℚ → Option (ℚ × ℚ))
    (wl : Option (List String)) (seg : ℕ) (l : String) (e : DxfEntity) :
    (layer_ok wl l = true ↔ wl = none ∨ ∃ s, wl = some s ∧ l ∈ s) ∧
    (layer_ok wl (layer_of e) = false →
      process_entity mc ms mr tr wl seg e = .skipped) ∧
    layer_ok (some ["Y"]) "X" = false ∧
    layer_ok none "X" = true ∧
    (∀ s, layer_ok (some []) s = false) := by
  refine ⟨?_, ?_, by decide, rfl, fun s => rfl⟩
  · cases wl with
    | none => simp [layer_ok]
    | some s => simp [layer_ok]
  · intro hl
    cases e <;> (simp only [layer_of] at hl; simp [process_entity, hl])

/-- C9 witness: concrete filtering via `c9_thm`: a point on layer "X" is
skipped under allow-list `{"Y"}`, while the absent allow-list admits "X". -/
theorem c9_witness :
    process_entity idQ idQ idQ idTr (some ["Y"]) 4 (.point "X" ⟨0, 0, 0⟩) =
      .skipped ∧
    layer_ok none "X" = true := by
  have h := c9_thm idQ idQ idQ idTr (some ["Y"]) 4 "X" (.point "X" ⟨0, 0, 0⟩)
  exact ⟨h.2.1 (by decide), h.2.2.2.1⟩

/-- C1 counterexample: a Circle on an allowed layer is emitted as a
linestring (an open path feature counted under `polylines`), not as a
polygon: the claim that circles are emitted as filled-region features fails
on the code. -/
theorem c1_counterexample :
    process_entities idQ idQ idQ idTr none 4 [.circle "L" ⟨0, 0, 0⟩ 1] =
      [⟨.polyline, "CIRCLE:L",
        [(0, 0, 0), (90, 90, 0), (180, 180, 0), (270, 270, 0),
          (360, 360, 0)]⟩] ∧
    tally (process_entities idQ idQ idQ idTr none 4
      [.circle "L" ⟨0, 0, 0⟩ 1]) = ⟨0, 0, 1, 0⟩ ∧
    FeatureKind.polyline ≠ FeatureKind.polygon := by
  have hpe : process_entity idQ idQ idQ idTr none 4
      (.circle "L" ⟨0, 0, 0⟩ 1) =
      .emitted ⟨.polyline, "CIRCLE:L",
        [(0, 0, 0), (90, 90, 0), (180, 180, 0), (270, 270, 0),
          (360, 360, 0)]⟩ := by
    norm_num [process_entity, layer_ok, arc_to_polyline, idQ, idTr,
      transform_xy_list, withZeroZ, List.range_succ, List.range_zero,
      show (max 1 4 : ℕ) = 4 from rfl]
    rfl
  have hlist : process_entities idQ idQ idQ idTr none 4
      [.circle "L" ⟨0, 0, 0⟩ 1] =
      [⟨.polyline, "CIRCLE:L",
        [(0, 0, 0), (90, 90, 0), (180, 180, 0), (270, 270, 0),
          (360, 360, 0)]⟩] := by
    simp [process_entities, hpe]
  exact ⟨hlist, by rw [hlist]; rfl, by decide⟩

/-- C1 (amended): a Circle entity on an allowed layer is flattened with a
full 360° sweep into `segments + 1` vertices, but is emitted as an open path
feature (a linestring named `CIRCLE:<layer>`, counted under `polylines`),
never as a filled-region (polygon) feature. -/
theorem c1_thm (mc ms mr : ℚ → ℚ) (tr : ℚ → ℚ → Option (ℚ × ℚ))
    (wl : Option (List String)) (seg : ℕ) (layer : String) (c : Vec3)
    (r : ℚ) (coords : List (ℚ × ℚ))
    (h1 : layer_ok wl layer = true)
    (h2 : transform_xy_list tr (arc_to_polyline mc ms mr (c.x, c.y) r 0 360 seg)
      = some coords) :
    process_entity mc ms mr tr wl seg (.circle layer c r) =
      .emitted ⟨.polyline, "CIRCLE:" ++ layer, withZeroZ coords⟩ ∧
    (arc_to_polyline mc ms mr (c.x, c.y) r 0 360 seg).length = seg + 1 := by
  constructor
  · simp [process_entity, h1, h2]
  · simp [arc_to_polyline]

/-- C1 witness: the concrete Circle of `c1_counterexample`, via `c1_thm`. -/
theorem c1_witness :
    process_entity idQ idQ idQ idTr none 4 (.circle "L" ⟨0, 0, 0⟩ 1) =
      .emitted ⟨.polyline, "CIRCLE:L",
        withZeroZ [(0, 0), (90, 90), (180, 180), (270, 270), (360, 360)]⟩ := by
  have h2 : transform_xy_list idTr
      (arc_to_polyline idQ idQ idQ (0, 0) 1 0 360 4) =
      some [(0, 0), (90, 90), (180, 180), (270, 270), (360, 360)] := by
    norm_num [arc_to_polyline, idQ, idTr, transform_xy_list, List.range_succ,
      List.range_zero, show (max 1 4 : ℕ) = 4 from rfl]
  have h := c1_thm idQ idQ idQ idTr none 4 "L" ⟨0, 0, 0⟩ 1 _ rfl h2
  simpa using h.1

/-- Every coordinate triple built by `withZeroZ` has elevation `0`. -/
theorem withZeroZ_z (coords : List (ℚ × ℚ)) (c : ℚ × ℚ × ℚ)
    (hc : c ∈ withZeroZ coords) : c.2.2 = 0 := by
  simp only [withZeroZ, List.mem_map] at hc
  obtain ⟨a, _, rfl⟩ := hc
  rfl

/-- C2 counterexample: a Line whose endpoints have elevations 5 and 7 is
emitted with elevation `0.0` on every coordinate: elevation is not preserved
for all entity kinds, refuting the claim. -/
theorem c2_counterexample :
    process_entities idQ idQ idQ idTr none 4
        [.line "L" ⟨0, 0, 5⟩ ⟨1, 1, 7⟩] =
      [⟨.line, "LINE:L", [(0, 0, 0), (1, 1, 0)]⟩] ∧
    (5 : ℚ) ≠ 0 ∧ (7 : ℚ) ≠ 0 := by
  exact ⟨rfl, by norm_num, by norm_num⟩

/-- C2 (amended): reprojection transforms only `(x, y)`; the Point branch
preserves the vertex elevation `z` in the emitted feature, while every
other entity kind emits elevation `0` on every coordinate regardless of any
source elevation. -/
theorem c2_thm (mc ms mr : ℚ → ℚ) (tr : ℚ → ℚ → Option (ℚ × ℚ))
    (wl : Option (List String)) (seg : ℕ) :
    (∀ layer loc lon lat, layer_ok wl layer = true →
      tr loc.x loc.y = some (lon, lat) →
      process_entity mc ms mr tr wl seg (.point layer loc) =
        .emitted ⟨.point, "POINT:" ++ layer, [(lon, lat, loc.z)]⟩) ∧
    (∀ e f, process_entity mc ms mr tr wl seg e = .emitted f →
      f.kind ≠ .point → ∀ c ∈ f.coords, c.2.2 = 0) := by
  constructor
  · intro layer loc lon lat h1 h2
    simp [process_entity, h1, h2]
  · intro e f he hk c hc
    cases e <;> simp only [process_entity] at he <;>
      (try split at he) <;> (try split at he) <;> (try split at he) <;>
      first
        | (simp at he; done)
        | (simp only [EntityResult.emitted.injEq] at he; subst he;
           first
             | exact absurd rfl hk
             | exact withZeroZ_z _ c hc)

/-- C2 witness: via `c2_thm`, a concrete Point keeps its elevation 5, and a
concrete Line (source elevations 5 and 7) yields only zero elevations. -/
theorem c2_witness :
    process_entity idQ idQ idQ idTr none 4 (.point "L" ⟨1, 2, 5⟩) =
      .emitted ⟨.point, "POINT:L", [(1, 2, 5)]⟩ ∧
    (∀ c ∈ (⟨.line, "LINE:L", [(0, 0, 0), (1, 1, 0)]⟩ : Feature).coords,
      c.2.2 = 0) := by
  have h := c2_thm idQ idQ idQ idTr none 4
  constructor
  · simpa using h.1 "L" ⟨1, 2, 5⟩ 1 2 rfl rfl
  · exact h.2 (.line "L" ⟨0, 0, 5⟩ ⟨1, 1, 7⟩) _ rfl (by decide)

end DxfToKml
